import Mathlib

/-!
Verification of `mxfusion/components/distributions/beta.py`: the Beta
distribution leaf node of the MXFusion probabilistic programming library.

The tensor engine (MXNet) is external to the repository.  We embed tensors
as a shape together with flattened data, and the per-call computation mode
`F` (the tensor-operation provider) as a structure of scalar operations
applied elementwise with broadcasting; the broadcasting rule is restricted
to the shape patterns this unit exercises (equal shapes and a scalar-like
operand against an arbitrary tensor).  The injected random generator is an
oracle from call records to optional tensors; `draw_samples_impl` returns
its result together with the list of `sample_gamma` calls it issued, in
order, so that claims about which calls are made are provable.
-/

namespace MXFusionBeta

/-- A tensor of the host engine: a shape and flattened data. -/
structure Tensor (α : Type) where
  shape : List Nat
  data : List α
deriving DecidableEq, Repr

/-- The tensor-operation provider (the MXNet computation mode `F`):
scalar operations applied elementwise.  `log` and `gammaln` are the
provider's elementwise natural logarithm and log-gamma. -/
structure ScalarOps (α : Type) where
  add : α → α → α
  sub : α → α → α
  mul : α → α → α
  div : α → α → α
  one : α
  log : α → α
  gammaln : α → α

/-- Elementwise unary application (shape preserved). -/
def tmap {α : Type} (f : α → α) (t : Tensor α) : Tensor α :=
  ⟨t.shape, t.data.map f⟩

/-- A shape that broadcasts against anything: `()` or `(1,)`. -/
def scalarLike (s : List Nat) : Prop := s = [] ∨ s = [1]

instance : DecidablePred scalarLike := fun s => by
  unfold scalarLike; infer_instance

/-- Elementwise binary application with broadcasting, restricted to the
shape patterns this unit exercises: equal shapes combine positionwise and
a scalar-like operand broadcasts against the other; anything else is an
engine failure (`none`). -/
def ewise2 {α : Type} (f : α → α → α) (a b : Tensor α) : Option (Tensor α) :=
  if a.shape = b.shape then
    some ⟨a.shape, List.zipWith f a.data b.data⟩
  else if scalarLike a.shape then
    match a.data with
    | [v] => some ⟨b.shape, b.data.map (fun w => f v w)⟩
    | _ => none
  else if scalarLike b.shape then
    match b.data with
    | [w] => some ⟨a.shape, a.data.map (fun v => f v w)⟩
    | _ => none
  else none

/-- `F.ones_like`: a tensor of ones with the shape of `a`. -/
def onesLike {α : Type} (S : ScalarOps α) (a : Tensor α) : Tensor α :=
  ⟨a.shape, a.data.map (fun _ => S.one)⟩

/-- Pointwise ternary zip, used to state elementwise results. -/
def zipWith3 {α : Type} (f : α → α → α → α) : List α → List α → List α → List α
  | a :: as, b :: bs, x :: xs => f a b x :: zipWith3 f as bs xs
  | _, _, _ => []

/-- The closed-form Beta log-density at scalar arguments, written with the
provider's scalar operations:
`(a-1)*log x + (b-1)*log (1-x) - (lnGamma a + lnGamma b - lnGamma (a+b))`. -/
def betaLogDensity {α : Type} (S : ScalarOps α) (a b x : α) : α :=
  S.sub
    (S.add (S.mul (S.sub a S.one) (S.log x))
           (S.mul (S.sub b S.one) (S.log (S.sub S.one x))))
    (S.sub (S.add (S.gammaln a) (S.gammaln b)) (S.gammaln (S.add a b)))

/-- `Beta.log_pdf_impl`.  `defaultMode` models `get_default_MXNet_mode()`
(modelled from the spec: the process-wide configured computation mode, not
under src/); the source first line resolves `F` against it.  The body
follows the source line by line:
`log_x = F.log(random_variable)`;
`log_1_minus_x = F.log(1 - random_variable)`;
`log_beta_ab = F.gammaln(alpha) + F.gammaln(beta) - F.gammaln(alpha+beta)`;
`log_likelihood = F.broadcast_add((alpha-1)*log_x, (beta-1)*log_1_minus_x) - log_beta_ab`. -/
def log_pdf_impl {α : Type} (defaultMode : ScalarOps α)
    (alpha beta random_variable : Tensor α) (F : Option (ScalarOps α)) :
    Option (Tensor α) :=
  let S := F.getD defaultMode
  let log_x := tmap S.log random_variable
  let log_1_minus_x := tmap S.log (tmap (fun v => S.sub S.one v) random_variable)
  (ewise2 S.add (tmap S.gammaln alpha) (tmap S.gammaln beta)).bind fun gsum =>
    (ewise2 S.add alpha beta).bind fun asum =>
      (ewise2 S.sub gsum (tmap S.gammaln asum)).bind fun log_beta_ab =>
        (ewise2 S.mul (tmap (fun v => S.sub v S.one) alpha) log_x).bind fun aterm =>
          (ewise2 S.mul (tmap (fun v => S.sub v S.one) beta) log_1_minus_x).bind
            fun bterm =>
              (ewise2 S.add aterm bterm).bind fun log_likelihood =>
                ewise2 S.sub log_likelihood log_beta_ab

/-- A record of one call to the injected generator's `sample_gamma`
primitive: the keyword arguments the source passes
(`alpha=`, `beta=`, `shape=`, `dtype=`, `ctx=`). -/
structure GammaCall (α : Type) where
  alpha : Tensor α
  beta : Tensor α
  shape : List Nat
  dtype : Option String
  ctx : Option String
deriving DecidableEq, Repr

/-- Renders the remaining dimensions of a shape tuple with two or more
entries. -/
def shapeReprTail : List Nat → String
  | [] => ""
  | n :: rest => ", " ++ toString n ++ shapeReprTail rest

/-- Python `repr` of a shape tuple, as interpolated into the error
message: `()`, `(n,)`, `(n, m, ...)`. -/
def shapeRepr : List Nat → String
  | [] => "()"
  | [n] => "(" ++ toString n ++ ",)"
  | n :: rest => "(" ++ toString n ++ shapeReprTail rest ++ ")"

/-- The `ValueError` message of the shape check in `draw_samples_impl`:
`"Shape mismatch between inputs {} and random variable {}".format(alpha.shape, (num_samples,) + rv_shape)`. -/
def mismatchMsg (got expected : List Nat) : String :=
  "Shape mismatch between inputs " ++ shapeRepr got ++
    (" and random variable " ++ shapeRepr expected)

/-- `Beta.draw_samples_impl`.  `gen` is the injected generator's
`sample_gamma` (`self._rand_gen.sample_gamma`), `dtype`/`ctx` are the
node's `self.dtype`/`self.ctx` pass-throughs, and `defaultMode`/`F` are as
in `log_pdf_impl`.  Returns the call's outcome — an explicit
`Except.error` for the `ValueError` this unit raises, `Option.none` for a
failure propagated from the engine or generator — paired with the list of
`sample_gamma` calls issued, in order. -/
def draw_samples_impl {α : Type} (defaultMode : ScalarOps α)
    (gen : GammaCall α → Option (Tensor α)) (dtype ctx : Option String)
    (alpha beta : Tensor α) (rv_shape : List Nat) (num_samples : Nat)
    (F : Option (ScalarOps α)) :
    Except String (Option (Tensor α)) × List (GammaCall α) :=
  let S := F.getD defaultMode
  if alpha.shape ≠ num_samples :: rv_shape then
    (Except.error (mismatchMsg alpha.shape (num_samples :: rv_shape)), [])
  else
    let out_shape : List Nat := []
    let ones := onesLike S alpha
    let c1 : GammaCall α := ⟨alpha, ones, out_shape, dtype, ctx⟩
    match gen c1 with
    | none => (Except.ok none, [c1])
    | some x =>
      let c2 : GammaCall α := ⟨beta, ones, out_shape, dtype, ctx⟩
      match gen c2 with
      | none => (Except.ok none, [c1, c2])
      | some y =>
        (Except.ok ((ewise2 S.add x y).bind (fun s => ewise2 S.div x s)),
         [c1, c2])

/-- A materialized graph variable: the output slot handle, carrying its
shape. -/
structure Variable where
  shape : List Nat
deriving DecidableEq, Repr

/-- The Beta distribution node.  `P` is the type of the bound parameter
values (graph variables or python floats), `G` the type of the injected
random generator. -/
structure BetaNode (P G : Type) where
  input_names : List String
  output_names : List String
  inputs : List (String × P)
  outputs : Option (List (String × Variable))
  rand_gen : Option G
  dtype : Option String
  ctx : Option String

/-- `Beta.__init__` (source lines 37–44): builds the ordered input list
`[('alpha', alpha), ('beta', beta)]`, derives `input_names` from its keys,
fixes `output_names = ['random_variable']`, and hands everything to the
base-class constructor.  Modelled from the spec for the base class
`Distribution.__init__` (not under src/): per the spec it registers the
given named inputs and outputs on the node and stores `rand_gen`, `dtype`
and `ctx`; `outputs=None` leaves the output slot unmaterialized.  No
positivity validation of `alpha`/`beta` occurs anywhere: the constructor
is total in both parameters. -/
def betaInit {P G : Type} (alpha beta : P) (rand_gen : Option G)
    (dtype ctx : Option String) : BetaNode P G :=
  let inputs : List (String × P) := [("alpha", alpha), ("beta", beta)]
  { input_names := inputs.map Prod.fst
    output_names := ["random_variable"]
    inputs := inputs
    outputs := none
    rand_gen := rand_gen
    dtype := dtype
    ctx := ctx }

/-- Modelled from the spec: `_generate_outputs(shape)` of the base
distribution abstraction is not under src/; per the spec it materializes
the node's output variable(s) at the given shape, binding one variable per
registered output name.  The spec only discusses an explicit shape; a
missing shape defaults to a scalar `(1,)` slot. -/
def generateOutputs {P G : Type} (node : BetaNode P G)
    (shape : Option (List Nat)) : BetaNode P G :=
  { node with
    outputs := some (node.output_names.map fun n => (n, ⟨shape.getD [1]⟩)) }

/-- Modelled from the spec: the `random_variable` attribute exposed by the
base distribution abstraction — the materialized variable bound to the
output of that name, if any. -/
def randomVariable {P G : Type} (node : BetaNode P G) : Option Variable :=
  node.outputs.bind fun os => os.lookup "random_variable"

/-- `Beta.define_variable` (source lines 113–135): constructs a node from
the given parameters, materializes its outputs at `shape` via
`_generate_outputs`, and returns the node's random variable. -/
def define_variable {P G : Type} (alpha beta : P) (shape : Option (List Nat))
    (rand_gen : Option G) (dtype ctx : Option String) : Option Variable :=
  let beta_node := betaInit alpha beta rand_gen dtype ctx
  randomVariable (generateOutputs beta_node shape)

/-- A concrete provider instance over `Int`, used only to evaluate the
embedding at concrete inputs; `log` and `gammaln` are arbitrary computable
stand-ins, as every theorem is generic in the provider. -/
def intOps : ScalarOps Int where
  add := fun a b => a + b
  sub := fun a b => a - b
  mul := fun a b => a * b
  div := fun a b => a / b
  one := 1
  log := fun a => 2 * a + 3
  gammaln := fun a => 5 * a + 7

/-- A concrete generator oracle for evaluating `draw_samples_impl` at
concrete inputs: echoes the `alpha` argument of each call. -/
def genEcho : GammaCall Int → Option (Tensor Int) := fun c => some c.alpha

/-- A concrete generator oracle that always fails. -/
def genFail : GammaCall Int → Option (Tensor Int) := fun _ => none

theorem tmap_shape {α : Type} (f : α → α) (t : Tensor α) :
    (tmap f t).shape = t.shape := rfl

theorem tmap_data {α : Type} (f : α → α) (t : Tensor α) :
    (tmap f t).data = t.data.map f := rfl

theorem ewise2_same {α : Type} (f : α → α → α) (a b : Tensor α)
    (h : a.shape = b.shape) :
    ewise2 f a b = some ⟨a.shape, List.zipWith f a.data b.data⟩ := by
  simp [ewise2, h]

theorem ewise2_mk_same {α : Type} (f : α → α → α) (s : List Nat)
    (d1 d2 : List α) :
    ewise2 f ⟨s, d1⟩ ⟨s, d2⟩ = some ⟨s, List.zipWith f d1 d2⟩ :=
  ewise2_same f ⟨s, d1⟩ ⟨s, d2⟩ rfl

/-- Fusing the elementwise pipeline of `log_pdf_impl` over equally long
data lists into a single pointwise `betaLogDensity`. -/
theorem logpdf_data_fuse {α : Type} (S : ScalarOps α) :
    ∀ A B X : List α, A.length = X.length → B.length = X.length →
      List.zipWith S.sub
        (List.zipWith S.add
          (List.zipWith S.mul (A.map fun v => S.sub v S.one) (X.map S.log))
          (List.zipWith S.mul (B.map fun v => S.sub v S.one)
            ((X.map fun v => S.sub S.one v).map S.log)))
        (List.zipWith S.sub
          (List.zipWith S.add (A.map S.gammaln) (B.map S.gammaln))
          ((List.zipWith S.add A B).map S.gammaln)) =
      zipWith3 (betaLogDensity S) A B X := by
  intro A
  induction A with
  | nil => intro B X h1 h2; simp [zipWith3]
  | cons a as ih =>
    intro B X h1 h2
    cases X with
    | nil => simp at h1
    | cons x xs =>
      cases B with
      | nil => simp at h2
      | cons b bs =>
        simp only [List.map_cons, List.zipWith_cons_cons, zipWith3,
          List.length_cons, List.cons.injEq] at h1 h2 ⊢
        exact ⟨rfl, ih bs xs (by omega) (by omega)⟩

/-- The general elementwise form of `log_pdf_impl` on tensors of one
common shape. -/
theorem logPdf_eq_zipWith3 {α : Type} (S : ScalarOps α) (a b x : Tensor α)
    (hsa : a.shape = x.shape) (hsb : b.shape = x.shape)
    (hla : a.data.length = x.data.length)
    (hlb : b.data.length = x.data.length) :
    log_pdf_impl S a b x none =
      some ⟨x.shape, zipWith3 (betaLogDensity S) a.data b.data x.data⟩ := by
  obtain ⟨sa, da⟩ := a
  obtain ⟨sb, db⟩ := b
  obtain ⟨sx, dx⟩ := x
  simp only at hsa hsb hla hlb
  subst hsa hsb
  simp only [log_pdf_impl, Option.getD, tmap, ewise2_mk_same,
    Option.some_bind]
  simp only [Option.some.injEq, Tensor.mk.injEq, true_and]
  exact logpdf_data_fuse S da db dx hla hlb

/-- C1: on tensors of a common shape, `log_pdf_impl` returns, elementwise,
`(alpha-1)*log(x) + (beta-1)*log(1-x)
 - (lnGamma(alpha) + lnGamma(beta) - lnGamma(alpha+beta))`,
the closed-form Beta log-density expressed through the provider's
elementwise `log` and `gammaln`. -/
theorem log_pdf_closed_form {α : Type} (S : ScalarOps α) (a b x : Tensor α)
    (hsa : a.shape = x.shape) (hsb : b.shape = x.shape)
    (hla : a.data.length = x.data.length)
    (hlb : b.data.length = x.data.length) :
    log_pdf_impl S a b x none =
      some ⟨x.shape, zipWith3 (betaLogDensity S) a.data b.data x.data⟩ :=
  logPdf_eq_zipWith3 S a b x hsa hsb hla hlb

/-- Witness for C1 at concrete tensors of shape `(2,)`. -/
theorem log_pdf_closed_form_witness :
    log_pdf_impl intOps ⟨[2], [3, 4]⟩ ⟨[2], [5, 6]⟩ ⟨[2], [7, 8]⟩ none =
      some ⟨[2], zipWith3 (betaLogDensity intOps) [3, 4] [5, 6] [7, 8]⟩ :=
  log_pdf_closed_form intOps ⟨[2], [3, 4]⟩ ⟨[2], [5, 6]⟩ ⟨[2], [7, 8]⟩
    rfl rfl rfl rfl

theorem ewise2_scalar_left {α : Type} (f : α → α → α) (v : α) (s1 : List Nat)
    (b : Tensor α) (hs : scalarLike s1) (hne : s1 ≠ b.shape) :
    ewise2 f ⟨s1, [v]⟩ b = some ⟨b.shape, b.data.map fun w => f v w⟩ := by
  simp [ewise2, hne, hs]

theorem ewise2_scalar_right {α : Type} (f : α → α → α) (a : Tensor α) (v : α)
    (s2 : List Nat) (hs : scalarLike s2) (hna : ¬ scalarLike a.shape)
    (hne : a.shape ≠ s2) :
    ewise2 f a ⟨s2, [v]⟩ = some ⟨a.shape, a.data.map fun w => f w v⟩ := by
  simp [ewise2, hne, hs, hna]

theorem zipWith_map_same {α : Type} (h : α → α → α) (f g : α → α) :
    ∀ X : List α,
      List.zipWith h (X.map f) (X.map g) = X.map fun x => h (f x) (g x) := by
  intro X
  induction X with
  | nil => rfl
  | cons x xs ih => simp [ih]

/-- C4: scalar `alpha`/`beta` broadcast against a rank-1 random variable:
`log_pdf_impl` succeeds, and each element of its result is `log_pdf_impl`
applied independently to `alpha`, `beta` and that element of the random
variable. -/
theorem log_pdf_scalar_broadcast {α : Type} (S : ScalarOps α) (a b : α)
    (x : Tensor α) (n : Nat) (hs : x.shape = [n]) (hl : x.data.length = n) :
    log_pdf_impl S ⟨[1], [a]⟩ ⟨[1], [b]⟩ x none =
      some ⟨x.shape, x.data.map (betaLogDensity S a b)⟩ ∧
    ∀ i (h : i < x.data.length),
      log_pdf_impl S ⟨[1], [a]⟩ ⟨[1], [b]⟩ ⟨[1], [x.data.get ⟨i, h⟩]⟩ none =
        some ⟨[1], [betaLogDensity S a b (x.data.get ⟨i, h⟩)]⟩ := by
  obtain ⟨sx, dx⟩ := x
  simp only at hs hl ⊢
  subst hs
  constructor
  · by_cases hn1 : n = 1
    · subst hn1
      obtain ⟨x0, rfl⟩ := List.length_eq_one.mp hl
      simpa [zipWith3] using
        logPdf_eq_zipWith3 S ⟨[1], [a]⟩ ⟨[1], [b]⟩ ⟨[1], [x0]⟩ rfl rfl rfl rfl
    · have hne1 : ([1] : List Nat) ≠ [n] := by
        intro h; cases h; exact hn1 rfl
      have hne2 : ([n] : List Nat) ≠ [1] := by
        intro h; cases h; exact hn1 rfl
      have hnsl : ¬ scalarLike [n] := by
        rintro (h | h)
        · cases h
        · cases h; exact hn1 rfl
      simp only [log_pdf_impl, Option.getD, tmap, List.map_cons,
        List.map_nil, ewise2_mk_same, Option.some_bind,
        List.zipWith_cons_cons, List.zipWith_nil_right, List.zipWith_nil_left]
      rw [ewise2_scalar_left S.mul (S.sub a S.one) [1]
        ⟨[n], List.map S.log dx⟩ (Or.inr rfl) hne1, Option.some_bind]
      rw [ewise2_scalar_left S.mul (S.sub b S.one) [1]
        ⟨[n], List.map S.log (List.map (fun v => S.sub S.one v) dx)⟩
        (Or.inr rfl) hne1, Option.some_bind]
      rw [ewise2_mk_same, Option.some_bind]
      rw [ewise2_scalar_right S.sub
        ⟨[n], List.zipWith S.add
          (List.map (fun w => S.mul (S.sub a S.one) w) (List.map S.log dx))
          (List.map (fun w => S.mul (S.sub b S.one) w)
            (List.map S.log (List.map (fun v => S.sub S.one v) dx)))⟩
        _ [1] (Or.inr rfl) hnsl hne2]
      simp only [List.map_map, zipWith_map_same, Option.some.injEq,
        Tensor.mk.injEq, true_and]
      simp [betaLogDensity, Function.comp]
  · intro i h
    simpa [zipWith3] using
      logPdf_eq_zipWith3 S ⟨[1], [a]⟩ ⟨[1], [b]⟩ ⟨[1], [dx.get ⟨i, h⟩]⟩
        rfl rfl rfl rfl

/-- Witness for C4 at concrete scalar parameters against a `(2,)`
random variable. -/
theorem log_pdf_scalar_broadcast_witness :
    log_pdf_impl intOps ⟨[1], [3]⟩ ⟨[1], [5]⟩ ⟨[2], [7, 8]⟩ none =
      some ⟨[2], List.map (betaLogDensity intOps 3 5) [7, 8]⟩ :=
  (log_pdf_scalar_broadcast intOps 3 5 ⟨[2], [7, 8]⟩ 2 rfl rfl).1

theorem zipWith_div_add_fuse {α : Type} (S : ScalarOps α) :
    ∀ X Y : List α,
      List.zipWith S.div X (List.zipWith S.add X Y) =
        List.zipWith (fun xi yi => S.div xi (S.add xi yi)) X Y := by
  intro X
  induction X with
  | nil => intro Y; rfl
  | cons x xs ih =>
    intro Y
    cases Y with
    | nil => rfl
    | cons y ys => simp [ih]

/-- C2: with a well-shaped `alpha`, `draw_samples_impl` issues exactly two
`sample_gamma` calls — `Gamma(alpha, 1)` then `Gamma(beta, 1)`, both with
the same unit-scale tensor `ones_like alpha` — and returns `X/(X+Y)`
elementwise, with no other transformation of the generator's output. -/
theorem draw_samples_gamma_construction {α : Type} (S : ScalarOps α)
    (gen : GammaCall α → Option (Tensor α)) (d c : Option String)
    (alpha beta : Tensor α) (rs : List Nat) (ns : Nat) (x y : Tensor α)
    (hsh : alpha.shape = ns :: rs)
    (hx : gen ⟨alpha, onesLike S alpha, [], d, c⟩ = some x)
    (hy : gen ⟨beta, onesLike S alpha, [], d, c⟩ = some y)
    (hxy : x.shape = y.shape) :
    draw_samples_impl S gen d c alpha beta rs ns none =
      (Except.ok (some ⟨x.shape,
        List.zipWith (fun xi yi => S.div xi (S.add xi yi)) x.data y.data⟩),
       [⟨alpha, onesLike S alpha, [], d, c⟩,
        ⟨beta, onesLike S alpha, [], d, c⟩]) := by
  simp only [draw_samples_impl, Option.getD, ne_eq, hsh, not_true_eq_false,
    if_false, hx, hy]
  rw [ewise2_same S.add x y hxy]
  simp only [Option.some_bind]
  rw [ewise2_same S.div x ⟨x.shape, List.zipWith S.add x.data y.data⟩ rfl]
  simp [zipWith_div_add_fuse]

/-- Witness for C2 at concrete inputs: `alpha` of shape `(2,)` with
`num_samples = 2` and empty `rv_shape`, using the echoing generator. -/
theorem draw_samples_gamma_construction_witness :
    draw_samples_impl intOps genEcho none none ⟨[2], [3, 4]⟩ ⟨[2], [5, 6]⟩
        [] 2 none =
      (Except.ok (some ⟨[2],
        List.zipWith (fun xi yi => intOps.div xi (intOps.add xi yi))
          [3, 4] [5, 6]⟩),
       [⟨⟨[2], [3, 4]⟩, onesLike intOps ⟨[2], [3, 4]⟩, [], none, none⟩,
        ⟨⟨[2], [5, 6]⟩, onesLike intOps ⟨[2], [3, 4]⟩, [], none, none⟩]) :=
  draw_samples_gamma_construction intOps genEcho none none ⟨[2], [3, 4]⟩
    ⟨[2], [5, 6]⟩ [] 2 ⟨[2], [3, 4]⟩ ⟨[2], [5, 6]⟩ rfl rfl rfl rfl

/-- C3: `draw_samples_impl` raises its shape-mismatch error exactly when
`alpha.shape ≠ (num_samples,) + rv_shape`; the message contains both the
observed and the expected shape, and no `sample_gamma` call is made when
the error is raised. -/
theorem draw_samples_shape_check {α : Type} (S : ScalarOps α)
    (gen : GammaCall α → Option (Tensor α)) (d c : Option String)
    (alpha beta : Tensor α) (rs : List Nat) (ns : Nat) :
    (alpha.shape ≠ ns :: rs →
      draw_samples_impl S gen d c alpha beta rs ns none =
        (Except.error (mismatchMsg alpha.shape (ns :: rs)), []) ∧
      (∃ u v, mismatchMsg alpha.shape (ns :: rs) =
        u ++ (shapeRepr alpha.shape ++ v)) ∧
      (∃ u v, mismatchMsg alpha.shape (ns :: rs) =
        u ++ (shapeRepr (ns :: rs) ++ v))) ∧
    (alpha.shape = ns :: rs →
      ∀ m, (draw_samples_impl S gen d c alpha beta rs ns none).1 ≠
        Except.error m) := by
  constructor
  · intro hne
    refine ⟨by simp [draw_samples_impl, hne], ?_, ?_⟩
    · exact ⟨"Shape mismatch between inputs ",
        " and random variable " ++ shapeRepr (ns :: rs),
        by simp [mismatchMsg, String.append_assoc]⟩
    · exact ⟨"Shape mismatch between inputs " ++ shapeRepr alpha.shape ++
        " and random variable ", "",
        by simp [mismatchMsg, String.append_assoc, String.append_empty]⟩
  · intro heq m
    simp only [draw_samples_impl, Option.getD, ne_eq, heq, not_true_eq_false,
      if_false]
    cases hg1 : gen ⟨alpha, onesLike S alpha, [], d, c⟩ with
    | none => simp
    | some x =>
      cases hg2 : gen ⟨beta, onesLike S alpha, [], d, c⟩ with
      | none => simp
      | some y => simp

/-- Witness for C3: a mismatched alpha shape `(3,)` against expected
`(2,)` yields the error with both shapes in the message and no generator
call; a matching one raises nothing. -/
theorem draw_samples_shape_check_witness :
    (draw_samples_impl intOps genEcho none none ⟨[3], [1, 1, 1]⟩
        ⟨[3], [5, 5, 5]⟩ [] 2 none =
      (Except.error (mismatchMsg [3] [2]), []) ∧
      (∃ u v, mismatchMsg [3] [2] = u ++ (shapeRepr [3] ++ v)) ∧
      (∃ u v, mismatchMsg [3] [2] = u ++ (shapeRepr [2] ++ v))) ∧
    ∀ m, (draw_samples_impl intOps genEcho none none ⟨[2], [3, 4]⟩
        ⟨[2], [5, 6]⟩ [] 2 none).1 ≠ Except.error m :=
  ⟨(draw_samples_shape_check intOps genEcho none none ⟨[3], [1, 1, 1]⟩
      ⟨[3], [5, 5, 5]⟩ [] 2).1 (by decide),
   (draw_samples_shape_check intOps genEcho none none ⟨[2], [3, 4]⟩
      ⟨[2], [5, 6]⟩ [] 2).2 rfl⟩

/-- C8: the shape-mismatch check is the only explicit error of this unit:
any `Except.error` carries exactly the mismatch message under a mismatched
`alpha`, and a failure of the generator — on either call — propagates
unchanged (`Except.ok none`) without being caught or retried. -/
theorem only_shape_mismatch_error {α : Type} (S : ScalarOps α)
    (gen : GammaCall α → Option (Tensor α)) (d c : Option String)
    (alpha beta : Tensor α) (rs : List Nat) (ns : Nat) :
    (∀ m, (draw_samples_impl S gen d c alpha beta rs ns none).1 =
        Except.error m →
      alpha.shape ≠ ns :: rs ∧ m = mismatchMsg alpha.shape (ns :: rs)) ∧
    (alpha.shape = ns :: rs →
      gen ⟨alpha, onesLike S alpha, [], d, c⟩ = none →
      draw_samples_impl S gen d c alpha beta rs ns none =
        (Except.ok none, [⟨alpha, onesLike S alpha, [], d, c⟩])) ∧
    (alpha.shape = ns :: rs → ∀ x,
      gen ⟨alpha, onesLike S alpha, [], d, c⟩ = some x →
      gen ⟨beta, onesLike S alpha, [], d, c⟩ = none →
      draw_samples_impl S gen d c alpha beta rs ns none =
        (Except.ok none, [⟨alpha, onesLike S alpha, [], d, c⟩,
          ⟨beta, onesLike S alpha, [], d, c⟩])) := by
  refine ⟨?_, ?_, ?_⟩
  · intro m hm
    by_cases hsh : alpha.shape = ns :: rs
    · exfalso
      simp only [draw_samples_impl, Option.getD, ne_eq, hsh,
        not_true_eq_false, if_false] at hm
      cases hg1 : gen ⟨alpha, onesLike S alpha, [], d, c⟩ with
      | none => rw [hg1] at hm; simp at hm
      | some x =>
        rw [hg1] at hm
        cases hg2 : gen ⟨beta, onesLike S alpha, [], d, c⟩ with
        | none => rw [hg2] at hm; simp at hm
        | some y => rw [hg2] at hm; simp at hm
    · refine ⟨hsh, ?_⟩
      simp [draw_samples_impl, hsh] at hm
      exact hm.symm
  · intro hsh hg1
    simp [draw_samples_impl, hsh, hg1]
  · intro hsh x hg1 hg2
    simp [draw_samples_impl, hsh, hg1, hg2]

/-- Witness for C8: the failing generator's `none` propagates as
`Except.ok none` after one call, and the mismatch message is recovered
from a concrete error. -/
theorem only_shape_mismatch_error_witness :
    draw_samples_impl intOps genFail none none ⟨[2], [3, 4]⟩ ⟨[2], [5, 6]⟩
        [] 2 none =
      (Except.ok none,
       [⟨⟨[2], [3, 4]⟩, onesLike intOps ⟨[2], [3, 4]⟩, [], none, none⟩]) :=
  (only_shape_mismatch_error intOps genFail none none ⟨[2], [3, 4]⟩
    ⟨[2], [5, 6]⟩ [] 2).2.1 rfl rfl

/-- C9: `beta`'s shape is never validated: whether the shape-mismatch
error fires is independent of `beta`, and when sampling proceeds, `beta`
is passed to the second `sample_gamma` call unchecked and unchanged. -/
theorem draw_samples_beta_unchecked {α : Type} (S : ScalarOps α)
    (gen : GammaCall α → Option (Tensor α)) (d c : Option String)
    (alpha : Tensor α) (rs : List Nat) (ns : Nat) (b1 b2 : Tensor α) :
    (∀ m, (draw_samples_impl S gen d c alpha b1 rs ns none).1 =
        Except.error m ↔
      (draw_samples_impl S gen d c alpha b2 rs ns none).1 =
        Except.error m) ∧
    (alpha.shape = ns :: rs → ∀ x,
      gen ⟨alpha, onesLike S alpha, [], d, c⟩ = some x →
      (draw_samples_impl S gen d c alpha b1 rs ns none).2 =
        [⟨alpha, onesLike S alpha, [], d, c⟩,
         ⟨b1, onesLike S alpha, [], d, c⟩]) := by
  constructor
  · intro m
    by_cases hsh : alpha.shape = ns :: rs
    · simp only [draw_samples_impl, Option.getD, ne_eq, hsh,
        not_true_eq_false, if_false]
      cases hg1 : gen ⟨alpha, onesLike S alpha, [], d, c⟩ with
      | none => simp
      | some x =>
        constructor
        · intro h
          exfalso
          cases hg2 : gen ⟨b1, onesLike S alpha, [], d, c⟩ with
          | none => rw [hg2] at h; simp at h
          | some y => rw [hg2] at h; simp at h
        · intro h
          exfalso
          cases hg2 : gen ⟨b2, onesLike S alpha, [], d, c⟩ with
          | none => rw [hg2] at h; simp at h
          | some y => rw [hg2] at h; simp at h
    · simp [draw_samples_impl, hsh]
  · intro hsh x hg1
    simp only [draw_samples_impl, Option.getD, ne_eq, hsh,
      not_true_eq_false, if_false, hg1]
    cases hg2 : gen ⟨b1, onesLike S alpha, [], d, c⟩ with
    | none => simp
    | some y => simp

/-- Witness for C9: with a malformed `beta` of shape `(5,)` the error
behavior matches that of a well-formed `beta`, and `beta` reaches the
second call unchanged. -/
theorem draw_samples_beta_unchecked_witness :
    (∀ m, (draw_samples_impl intOps genEcho none none ⟨[2], [3, 4]⟩
        ⟨[5], [9, 9, 9, 9, 9]⟩ [] 2 none).1 = Except.error m ↔
      (draw_samples_impl intOps genEcho none none ⟨[2], [3, 4]⟩
        ⟨[2], [5, 6]⟩ [] 2 none).1 = Except.error m) ∧
    (draw_samples_impl intOps genEcho none none ⟨[2], [3, 4]⟩
        ⟨[5], [9, 9, 9, 9, 9]⟩ [] 2 none).2 =
      [⟨⟨[2], [3, 4]⟩, onesLike intOps ⟨[2], [3, 4]⟩, [], none, none⟩,
       ⟨⟨[5], [9, 9, 9, 9, 9]⟩, onesLike intOps ⟨[2], [3, 4]⟩, [],
         none, none⟩] :=
  ⟨(draw_samples_beta_unchecked intOps genEcho none none ⟨[2], [3, 4]⟩
      [] 2 ⟨[5], [9, 9, 9, 9, 9]⟩ ⟨[2], [5, 6]⟩).1,
   (draw_samples_beta_unchecked intOps genEcho none none ⟨[2], [3, 4]⟩
      [] 2 ⟨[5], [9, 9, 9, 9, 9]⟩ ⟨[2], [5, 6]⟩).2 rfl ⟨[2], [3, 4]⟩ rfl⟩

/-- C10: every `sample_gamma` call issued by `draw_samples_impl` passes
the empty tuple as its `shape` argument, so sampled output shapes are
fixed by the parameter tensors alone. -/
theorem sample_gamma_shape_arg_empty {α : Type} (S : ScalarOps α)
    (gen : GammaCall α → Option (Tensor α)) (d c : Option String)
    (alpha beta : Tensor α) (rs : List Nat) (ns : Nat)
    (F : Option (ScalarOps α)) (call : GammaCall α)
    (h : call ∈ (draw_samples_impl S gen d c alpha beta rs ns F).2) :
    call.shape = [] := by
  simp only [draw_samples_impl] at h
  by_cases hsh : alpha.shape = ns :: rs
  · simp only [ne_eq, hsh, not_true_eq_false, if_false] at h
    cases hg1 : gen ⟨alpha, onesLike (F.getD S) alpha, [], d, c⟩ with
    | none =>
      rw [hg1] at h
      simp only [List.mem_singleton] at h
      subst h; rfl
    | some x =>
      rw [hg1] at h
      cases hg2 : gen ⟨beta, onesLike (F.getD S) alpha, [], d, c⟩ with
      | none =>
        rw [hg2] at h
        rcases List.mem_pair.mp h with h | h <;> (subst h; rfl)
      | some y =>
        rw [hg2] at h
        rcases List.mem_pair.mp h with h | h <;> (subst h; rfl)
  · simp [ne_eq, hsh] at h

/-- Witness for C10: the first call issued at a concrete well-shaped input
has an empty shape argument. -/
theorem sample_gamma_shape_arg_empty_witness :
    (⟨⟨[2], [3, 4]⟩, onesLike intOps ⟨[2], [3, 4]⟩, [], none, none⟩ :
      GammaCall Int).shape = [] :=
  sample_gamma_shape_arg_empty intOps genEcho none none ⟨[2], [3, 4]⟩
    ⟨[2], [5, 6]⟩ [] 2 none _ (by decide)

/-- C5: `define_variable` constructs a node from the given parameters,
materializes its outputs at the requested shape via `_generate_outputs`,
and returns the node's random-variable handle; with an explicit shape the
handle's materialized shape equals the requested one. -/
theorem define_variable_materializes {P G : Type} (alpha beta : P)
    (rg : Option G) (d c : Option String) (s : List Nat) :
    (∀ sh, define_variable alpha beta sh rg d c =
      randomVariable (generateOutputs (betaInit alpha beta rg d c) sh)) ∧
    define_variable alpha beta (some s) rg d c = some ⟨s⟩ := by
  refine ⟨fun sh => rfl, ?_⟩
  simp [define_variable, randomVariable, generateOutputs, betaInit]

/-- C6: constructing a Beta node registers exactly the two inputs
`alpha` and `beta`, in that order, and the single output
`random_variable`; those names are unchanged by output materialization
(log-density and sampling never touch the node's wiring at all), and the
construction is total — no positivity validation of either parameter. -/
theorem beta_init_registration {P G : Type} (alpha beta : P) (rg : Option G)
    (d c : Option String) :
    (betaInit (G := G) alpha beta rg d c).inputs =
      [("alpha", alpha), ("beta", beta)] ∧
    (betaInit (G := G) alpha beta rg d c).input_names = ["alpha", "beta"] ∧
    (betaInit (G := G) alpha beta rg d c).output_names =
      ["random_variable"] ∧
    ∀ sh,
      (generateOutputs (betaInit alpha beta rg d c) sh).input_names =
        ["alpha", "beta"] ∧
      (generateOutputs (betaInit alpha beta rg d c) sh).inputs =
        [("alpha", alpha), ("beta", beta)] ∧
      (generateOutputs (betaInit alpha beta rg d c) sh).output_names =
        ["random_variable"] :=
  ⟨rfl, rfl, rfl, fun _ => ⟨rfl, rfl, rfl⟩⟩

/-- C7: when the computation-mode argument `F` is `none`, both
`log_pdf_impl` and `draw_samples_impl` use the configured default mode;
when `F` is supplied, the default is irrelevant and all tensor operations
use the supplied mode. -/
theorem mode_defaulting {α : Type} (dm f : ScalarOps α)
    (gen : GammaCall α → Option (Tensor α)) (dt c : Option String)
    (a b x : Tensor α) (rs : List Nat) (ns : Nat) :
    log_pdf_impl dm a b x none = log_pdf_impl dm a b x (some dm) ∧
    log_pdf_impl dm a b x (some f) = log_pdf_impl f a b x (some f) ∧
    draw_samples_impl dm gen dt c a b rs ns none =
      draw_samples_impl dm gen dt c a b rs ns (some dm) ∧
    draw_samples_impl dm gen dt c a b rs ns (some f) =
      draw_samples_impl f gen dt c a b rs ns (some f) :=
  ⟨rfl, rfl, rfl, rfl⟩

end MXFusionBeta
